import Mathlib

/-!
Shallow embedding of the DPC3000 pressure-controller protocol engine
(`constants.py` and `pressure_controller.py`).

The transport (pyserial) is external: decoders are modelled as pure
functions on the response line, and the polling operations
(`vent_press`, `set_press`) as functions of scripted reply streams,
with a fuel parameter standing in for the unbounded `while` loops.
-/

namespace DPC3000

/-! ## constants.py -/

def CHECK : String := "@check\r"

def READPRESS : String := "@ReadPress:bar\r"

def SETPRESS : String := "@SetPress:"

def STOP : String := "@Stop\r"

def VENT : String := "@Vent\r"

def TICKPRESS : String := "@TickPress\r"

def TICKVAC : String := "@TickVac\r"

def READMODE : String := "@ReadMode\r"

def SETMODE : String := "@SetMode:"

def READSTATUS : String := "@ReadStatus\r"

def READSTATUS_BIN : String := "@ReadStatus:bin\r"

/-- Constant `PRECISSION = 0.1  # bar` (sic), as an exact rational. -/
def PRECISSION : ℚ := 1 / 10

/-- Dict `PRESS_ERRORCODES`, embedded as its lookup function. -/
def PRESS_ERRORCODES (tok : String) : Option String :=
  if tok = "CER" then some "Communication Error"
  else if tok = "PER" then some "Parameter Error"
  else if tok = "VER" then some "Value Error"
  else if tok = "TER" then some "Timeout"
  else if tok = "FER" then some "Format Error"
  else if tok = "SER" then some "Command Error"
  else if tok = "ErrUnknCmd" then some "Unknown Command"
  else if tok = "ErrFunction" then some "Error Function"
  else if tok = "ErrParameter" then some "Parameter Error"
  else none

def PRESS_ERRORS : List String :=
  ["CER", "PER", "VER", "TER", "FER", "SER",
   "ErrUnknCmd", "ErrFunction", "ErrParameter"]

def MODES : List String := ["Control", "Measure", "Vent"]

/-- Dict `PRESS_STATUS`, embedded as its lookup function. -/
def PRESS_STATUS (n : ℕ) : Option String :=
  if n = 1 then some "Pressure is within the tolerance band"
  else if n = 2 then some "Fine control (PI control) completed"
  else if n = 4 then some "Coarse control completed"
  else if n = 8 then some "Venting valve is open"
  else if n = 16 then some "Controller is in overload state"
  else if n = 32 then some "Zero offset compensation is active"
  else if n = 64 then some "Controller timeout"
  else if n = 128 then some "Controller is in stop state"
  else none

/-- The eight canonical single-bit status values, i.e. the key set of
`PRESS_STATUS`. -/
def canonicalStatusValues : List ℕ := [1, 2, 4, 8, 16, 32, 64, 128]

/-! ## Models of the Python builtins the decoders call

`read_press` calls `float(...)` and `read_status` calls `int(..., base)`.
These are modelled exactly on the inputs the device protocol can produce:
optionally signed finite decimal / integer literals surrounded by
whitespace.  (IEEE special values `inf`/`nan` and digit-group underscores
are outside the model; no response line in the protocol contains them.) -/

/-- The characters Python's numeric parsers strip from both ends. -/
def pyWhitespace : List Char := [' ', '\t', '\n', '\x0b', '\x0c', '\r']

/-- Strip Python whitespace from both ends of a character list. -/
def stripPyWS (l : List Char) : List Char :=
  ((l.dropWhile pyWhitespace.contains).reverse.dropWhile pyWhitespace.contains).reverse

/-- Numeric value of a decimal digit character. -/
def digitVal (c : Char) : ℕ := c.toNat - 48

/-- Value of a decimal digit string. -/
def decimalVal (l : List Char) : ℕ :=
  l.foldl (fun a c => 10 * a + digitVal c) 0

/-- Parse an unsigned decimal mantissa `digits[.digits]` (at least one
digit overall) into (numerator, count of fractional digits), so that
its value is the numerator over `10 ^ count`. -/
def parseMantissa (l : List Char) : Option (ℕ × ℕ) :=
  let ip := l.takeWhile Char.isDigit
  match l.dropWhile Char.isDigit with
  | [] => if ip.isEmpty then none else some (decimalVal ip, 0)
  | c :: fp =>
    if c = '.' ∧ fp.all Char.isDigit ∧ ¬(ip.isEmpty ∧ fp.isEmpty) then
      some (decimalVal ip * 10 ^ fp.length + decimalVal fp, fp.length)
    else none

/-- Parse an unsigned nonempty decimal digit string. -/
def parseNatDigits (l : List Char) : Option ℕ :=
  if ¬l.isEmpty ∧ l.all Char.isDigit then some (decimalVal l) else none

/-- Parse an optionally signed nonempty decimal digit string. -/
def parseExpInt : List Char → Option ℤ
  | '+' :: l => (parseNatDigits l).map (↑·)
  | '-' :: l => (parseNatDigits l).map fun n => -(n : ℤ)
  | l => (parseNatDigits l).map (↑·)

/-- Parse a float body: mantissa with optional `e`/`E` exponent part.
Built from `mkRat` so the value is kernel-evaluable. -/
def parseFloatBody (l : List Char) : Option ℚ :=
  let m := l.takeWhile fun c => !(c == 'e' || c == 'E')
  match l.dropWhile fun c => !(c == 'e' || c == 'E') with
  | [] => (parseMantissa m).map fun p => mkRat p.1 (10 ^ p.2)
  | _ :: e =>
    match parseMantissa m, parseExpInt e with
    | some p, some x => some (mkRat (p.1 * 10 ^ x.toNat) (10 ^ (p.2 + (-x).toNat)))
    | _, _ => none

/-- Parse an optional sign followed by a float body. -/
def parseSigned (p : List Char → Option ℚ) : List Char → Option ℚ
  | '+' :: l => p l
  | '-' :: l => (p l).map Neg.neg
  | l => p l

/-- Model of Python `float(s)` (finite decimal literals). -/
def pyFloat (s : String) : Option ℚ :=
  parseSigned parseFloatBody (stripPyWS s.toList)

/-- Digit string value in a given base. -/
def baseVal (base : ℕ) (l : List Char) : ℕ :=
  l.foldl (fun a c => base * a + digitVal c) 0

/-- Parse a nonempty digit string all of whose digits are below `base`. -/
def parseBaseDigits (base : ℕ) (l : List Char) : Option ℕ :=
  if ¬l.isEmpty ∧ l.all (fun c => c.isDigit ∧ digitVal c < base) then
    some (baseVal base l)
  else none

/-- Model of Python `int(s, base)` for bases 2 and 10: optional
whitespace, optional sign, nonempty digits valid for the base. -/
def pyInt (base : ℕ) (s : String) : Option ℤ :=
  match stripPyWS s.toList with
  | '+' :: l => (parseBaseDigits base l).map (↑·)
  | '-' :: l => (parseBaseDigits base l).map (fun n => -(n : ℤ))
  | l => (parseBaseDigits base l).map (↑·)

/-! ## Protocol codec (`read_press`, `read_status` decoding) -/

/-- Step `response.replace(",", ".")` of `read_press`. -/
def commaFix (s : String) : String :=
  String.mk (s.toList.map fun c => if c = ',' then '.' else c)

/-- Decoding step of `read_press`: replace every comma by a period, then
`float(response)` (which itself tolerates the trailing `\r` as
whitespace). `none` models the `ValueError` Python would raise. -/
def read_press_decode (response : String) : Option ℚ :=
  pyFloat (commaFix response)

/-- Decoding step of `read_status`: `status = str(status[:-1])`, i.e. the last
character of the line is dropped unconditionally, then
`int(status, 2)` if `binar` else `int(status)`. `none` models the
`ValueError` Python would raise. -/
def read_status_decode (binar : Bool) (line : String) : Option ℤ :=
  pyInt (if binar then 2 else 10) (String.mk line.toList.dropLast)

/-! ## Status model (`translate_status`)

The source prints each description; the model collects the printed
descriptions in order. -/

/-- The legacy branch of `translate_status`: direct dict lookup
`ct.PRESS_STATUS.get(received_status, "ukn")`, one description. -/
def translate_status_legacy (received_status : ℕ) : List String :=
  [(PRESS_STATUS received_status).getD "ukn"]

/-- Inner helper `what_bit_is_set(n, k)`: if the `k`-th bit (1-indexed)
of `n` is set, emit the description looked up at `n & (1 << (k - 1))`. -/
def what_bit_is_set (n k : ℕ) : List String :=
  let tmp := n &&& (1 <<< (k - 1))
  if tmp ≠ 0 then [(PRESS_STATUS tmp).getD "ukn"] else []

/-- The bit-iteration branch of `translate_status`:
`for i in range(8): what_bit_is_set(received_status, i + 1)`. -/
def translate_status_bits (received_status : ℕ) : List String :=
  (List.range 8).flatMap fun i => what_bit_is_set received_status (i + 1)

/-- Dispatcher `translate_status`: legacy direct lookup when the raw value is a key
of `PRESS_STATUS`, otherwise the bit iteration. -/
def translate_status (received_status : ℕ) : List String :=
  if (PRESS_STATUS received_status).isSome then
    translate_status_legacy received_status
  else
    translate_status_bits received_status

/-! ## Controller operations -/

/-- Operation `set_mode`, modelled as the list of transport writes it performs
together with whether the local validation complaint was printed. -/
def set_mode (mode : String) : List String × Bool :=
  if mode ∈ MODES then ([SETMODE ++ mode ++ "\r"], false)
  else ([], true)

/-- The status-polling phase of `vent_press`, against a scripted
transport `S` (the `i`-th status poll decodes to `S i`): one poll before
the `while status & 8` loop, then one per iteration.  Returns the total
number of status polls issued; `fuel` bounds the unbounded source loop
(`none` = still venting after `fuel` polls). -/
def vent_status_polls (S : ℕ → ℕ) : ℕ → ℕ → Option ℕ
  | 0, _ => none
  | fuel + 1, i =>
    if S i &&& 8 ≠ 0 then vent_status_polls S fuel (i + 1)
    else some (i + 1)

/-- How the polling loop of `set_press` ended. -/
inductive SetPressExit
  | normal
  | fatal
deriving DecidableEq

/-- Status-stream index consumed by `status = self.read_status(info=False)`
inside the loop body: when `show_status_change` is set, one extra status
poll (`new_status`) was consumed first. -/
def nextSIdx (show_status_change : Bool) (si : ℕ) : ℕ :=
  if show_status_change then si + 1 else si

/-- The `while` loop of `set_press`, against scripted transports
`P` (pressure reads) and `S` (status reads), with `p`/`st` the current
`pressure_read_value`/`status` and `pi`/`si` the next unread stream
indices.  Guard as in the source:
`abs(pressure_read_value - press_value) > ct.PRECISSION and not status & 1`.
In the body, the pressure is re-read, the optional `show_status_change`
poll happens, `status` is re-read, and if bit 64 or bit 128 is set the
function returns the last measured pressure (`fatal` exit).  On normal
exit one final pressure read is returned.  `fuel` bounds the unbounded
source loop (`none` = no exit within `fuel` iterations). -/
def set_press_go (P : ℕ → ℚ) (S : ℕ → ℕ) (press_value : ℚ)
    (show_status_change : Bool) :
    ℕ → ℚ → ℕ → ℕ → ℕ → Option (ℚ × SetPressExit)
  | 0, _, _, _, _ => none
  | fuel + 1, p, st, pi, si =>
    if |p - press_value| > PRECISSION ∧ st &&& 1 = 0 then
      let p2 := P pi
      let j := nextSIdx show_status_change si
      let st2 := S j
      if st2 &&& 64 ≠ 0 ∨ st2 &&& 128 ≠ 0 then some (p2, SetPressExit.fatal)
      else set_press_go P S press_value show_status_change fuel p2 st2 (pi + 1) (j + 1)
    else some (P pi, SetPressExit.normal)

/-- Operation `set_press` after its initial writes: first pressure read `P 0`,
first status read `S 0`, then the polling loop. -/
def set_press (P : ℕ → ℚ) (S : ℕ → ℕ) (press_value : ℚ)
    (show_status_change : Bool) (fuel : ℕ) : Option (ℚ × SetPressExit) :=
  set_press_go P S press_value show_status_change fuel (P 0) (S 0) 1 1

/-! ## The decode contract the specification claims

The spec asserts that error-token detection precedes normal decoding.
To compare that contract against the source decoder, both are cast into
one result type. -/

/-- Outcome space of the claimed pressure-decode contract. -/
inductive PressDecodeResult
  | value (q : ℚ)
  | errorToken (tok : String)
  | formatFailure
deriving DecidableEq

/-- The pressure decoder as the SPEC claims it behaves (stated from the
spec's words, for comparison with `read_press_decode`, which is
translated from the source): a body matching a known `ErrorToken` short
code decodes to that token, taking precedence over numeric parsing. -/
def read_press_decode_claimed (body : String) : PressDecodeResult :=
  let core := String.mk (body.toList.takeWhile fun c => c ≠ '\r')
  if core ∈ PRESS_ERRORS then PressDecodeResult.errorToken core
  else
    match read_press_decode body with
    | some q => PressDecodeResult.value q
    | none => PressDecodeResult.formatFailure

/-- The source pressure decoder, cast into the same outcome space:
it knows nothing of error tokens. -/
def read_press_decode_code (body : String) : PressDecodeResult :=
  match read_press_decode body with
  | some q => PressDecodeResult.value q
  | none => PressDecodeResult.formatFailure

/-- Description attached to the `i`-th bit (0-indexed), i.e. the
`PRESS_STATUS` entry at `2 ^ i`. -/
def bit_descr (i : ℕ) : String := (PRESS_STATUS (2 ^ i)).getD "ukn"

/-! ## Helper lemmas -/

theorem press_status_eq_none (n : ℕ) (h : n ∉ canonicalStatusValues) :
    PRESS_STATUS n = none := by
  simp only [canonicalStatusValues, List.mem_cons, List.not_mem_nil, or_false,
    not_or] at h
  obtain ⟨h1, h2, h4, h8, h16, h32, h64, h128⟩ := h
  simp [PRESS_STATUS, h1, h2, h4, h8, h16, h32, h64, h128]

theorem what_bit_is_set_eq (n i : ℕ) :
    what_bit_is_set n (i + 1) =
      if n.testBit i then [bit_descr i] else [] := by
  simp only [what_bit_is_set, Nat.add_sub_cancel, Nat.one_shiftLeft, bit_descr]
  rcases hb : n.testBit i
  · have h0 : n &&& 2 ^ i = 0 := by rw [Nat.and_two_pow, hb]; simp
    simp [h0]
  · have h1 : n &&& 2 ^ i = 2 ^ i := by rw [Nat.and_two_pow, hb]; simp
    simp [h1, (Nat.two_pow_pos i).ne']

/-! ## Claim theorems -/

/-- C4: for each of the eight canonical single-bit status integers,
describing the status word in legacy mode emits exactly one
description, namely the direct lookup in `PRESS_STATUS`. -/
theorem translate_status_canonical (v : ℕ) (h : v ∈ canonicalStatusValues) :
    translate_status v = [(PRESS_STATUS v).getD "ukn"] ∧
      (PRESS_STATUS v).isSome := by
  fin_cases h <;> exact ⟨by decide, by decide⟩

/-- C4 witness at the canonical value 1. -/
theorem translate_status_canonical_witness :
    translate_status 1 = ["Pressure is within the tolerance band"] :=
  (translate_status_canonical 1 (by decide)).1.trans (by decide)

/-- C5: for every status integer outside the canonical single-bit set,
describing the status word emits, for each set bit among positions 1–8
in ascending order, exactly the description of that bit, and nothing
else (hence nothing for input 0). -/
theorem translate_status_bitfield (n : ℕ) (h : n ∉ canonicalStatusValues) :
    translate_status n =
      (List.range 8).flatMap fun i =>
        if n.testBit i then [bit_descr i] else [] := by
  have hnone : PRESS_STATUS n = none := press_status_eq_none n h
  have hpt : (fun i => what_bit_is_set n (i + 1)) =
      fun i => if n.testBit i then [bit_descr i] else [] := by
    funext i
    exact what_bit_is_set_eq n i
  simp only [translate_status, hnone, Option.isSome_none, Bool.false_eq_true,
    if_false, translate_status_bits, hpt]

/-- C5 witness at inputs 0 (empty output) and 3 (bits 1 and 2). -/
theorem translate_status_bitfield_witness :
    translate_status 0 = [] ∧
      translate_status 3 = ["Pressure is within the tolerance band",
        "Fine control (PI control) completed"] :=
  ⟨(translate_status_bitfield 0 (by decide)).trans (by decide),
   (translate_status_bitfield 3 (by decide)).trans (by decide)⟩

/-- C10: on each canonical single-bit status value, the legacy
direct-lookup path and the general bit-iteration path of
`translate_status` produce the same single description, and the
dispatcher takes the legacy path. -/
theorem translate_status_paths_agree (v : ℕ)
    (h : v ∈ canonicalStatusValues) :
    translate_status_legacy v = translate_status_bits v ∧
      translate_status v = translate_status_legacy v := by
  fin_cases h <;> exact ⟨by decide, by decide⟩

/-- C10 witness at the canonical value 4. -/
theorem translate_status_paths_agree_witness :
    translate_status_legacy 4 = translate_status_bits 4 ∧
      translate_status_legacy 4 = ["Coarse control completed"] :=
  ⟨(translate_status_paths_agree 4 (by decide)).1, by decide⟩

theorem commaFix_idem (s : String) : commaFix (commaFix s) = commaFix s := by
  have hff : ((fun c => if c = ',' then '.' else c) ∘
        fun c => if c = ',' then '.' else c) =
      fun c : Char => if c = ',' then '.' else c := by
    funext c
    by_cases h : c = ',' <;> simp [Function.comp, h]
  show String.mk ((s.toList.map _).map _) = String.mk (s.toList.map _)
  rw [List.map_map, hff]

/-- C7: the pressure decoder replaces every comma by a period before
numeric parsing (so decoding is invariant under that normalization),
and the response line "1,5\r" decodes to the value 1.5. -/
theorem read_press_comma_normalization :
    (∀ s : String, read_press_decode (commaFix s) = read_press_decode s) ∧
      read_press_decode "1,5\r" = some (3 / 2) := by
  constructor
  · intro s
    simp only [read_press_decode, commaFix_idem]
  · have h : read_press_decode "1,5\r" = some (mkRat 3 2) := by decide
    rw [h, Rat.mkRat_eq_div]
    norm_num

/-- C9: `read_status` drops the final character of the response line
unconditionally — whatever that character is — and parses the rest in
base 2 (binary requested) or base 10; in particular a line "129"
arriving without a terminator loses its final digit and parses as 12. -/
theorem read_status_discards_last_char :
    (∀ (b : Bool) (l : List Char) (c : Char),
        read_status_decode b (String.mk (l ++ [c])) =
          pyInt (if b then 2 else 10) (String.mk l)) ∧
      read_status_decode false "129" = some 12 := by
  constructor
  · intro b l c
    simp only [read_status_decode]
    show pyInt _ (String.mk ((l ++ [c]).dropLast)) = _
    rw [List.dropLast_concat]
  · decide

/-- C1 counterexample: the response body "CER\r" does not decode to the
communication-error token; the source pressure decoder attempts numeric
parsing of it and fails, diverging from the claimed contract. -/
theorem error_token_counterexample :
    read_press_decode_code "CER\r" ≠ read_press_decode_claimed "CER\r" ∧
      read_press_decode_claimed "CER\r" = PressDecodeResult.errorToken "CER" ∧
      read_press_decode_code "CER\r" = PressDecodeResult.formatFailure :=
  ⟨by decide, by decide, by decide⟩

/-- C1 amended: no error-token detection exists; for every known
error-token short code, a body of that code followed by the terminator
fails numeric parsing in the pressure decoder and in the status decoder
(both bases), yielding a parse failure rather than a token value. -/
theorem error_token_no_detection (tok : String) (h : tok ∈ PRESS_ERRORS) :
    read_press_decode (tok ++ "\r") = none ∧
      read_status_decode false (tok ++ "\r") = none ∧
      read_status_decode true (tok ++ "\r") = none := by
  fin_cases h <;> exact ⟨by decide, by decide, by decide⟩

/-- C1 amended-claim witness at the token "CER". -/
theorem error_token_no_detection_witness :
    "CER" ∈ PRESS_ERRORS ∧ read_press_decode ("CER" ++ "\r") = none :=
  ⟨by decide, (error_token_no_detection "CER" (by decide)).1⟩

/-- C8: an invalid mode string causes zero transport writes and the
local validation complaint; exactly the three valid mode strings cause
the set-mode command to be written. -/
theorem set_mode_validation (mode : String) :
    (mode ∉ MODES → set_mode mode = ([], true)) ∧
      (mode ∈ MODES → set_mode mode = ([SETMODE ++ mode ++ "\r"], false)) := by
  refine ⟨fun h => ?_, fun h => ?_⟩ <;> simp [set_mode, h]

/-- C8 witness: "Invalid" is rejected without a write, "Control" is
transmitted. -/
theorem set_mode_validation_witness :
    set_mode "Invalid" = ([], true) ∧
      set_mode "Control" = (["@SetMode:Control\r"], false) :=
  ⟨(set_mode_validation "Invalid").1 (by decide),
   ((set_mode_validation "Control").2 (by decide)).trans (by decide)⟩

/-- Scripted vent transport: bit 8 set for the first `n` status polls,
clear from poll `n` on. -/
def ventScript (n : ℕ) : ℕ → ℕ := fun i => if i < n then 8 else 0

/-- C6 counterexample: against a transport reporting bit 8 set for 3
polls then clear, `vent_press` issues 4 status polls, not 3 — one
before the loop and one per iteration. -/
theorem vent_three_polls_counterexample :
    vent_status_polls (ventScript 3) 10 0 = some 4 ∧ (4 : ℕ) ≠ 3 :=
  ⟨by decide, by decide⟩

theorem vent_polls_count_aux (n : ℕ) :
    ∀ fuel i : ℕ, i ≤ n → n < i + fuel →
      vent_status_polls (ventScript n) fuel i = some (n + 1) := by
  intro fuel
  induction fuel with
  | zero => intro i hi hlt; omega
  | succ f ih =>
    intro i hi hlt
    by_cases hc : i < n
    · have hs : ventScript n i = 8 := by simp [ventScript, hc]
      have hstep : vent_status_polls (ventScript n) (f + 1) i =
          vent_status_polls (ventScript n) f (i + 1) := by
        simp only [vent_status_polls, hs]
        rw [if_pos (by decide)]
      rw [hstep]
      exact ih (i + 1) hc (by omega)
    · have hin : i = n := by omega
      have hs : ventScript n i = 0 := by simp [ventScript, hc]
      simp only [vent_status_polls, hs]
      rw [if_neg (by decide)]
      simp [hin]

/-- C6 amended: against a transport reporting bit 8 set for the first
`n` status polls and clear thereafter, `vent_press` terminates after
exactly `n + 1` status polls — the pre-loop poll plus one per loop
iteration — in addition to the initiating vent command (so 4 polls for
3 busy replies, not 3). -/
theorem vent_polls_count (n fuel : ℕ) (h : n < fuel) :
    vent_status_polls (ventScript n) fuel 0 = some (n + 1) :=
  vent_polls_count_aux n fuel 0 (Nat.zero_le n) (by omega)

/-- C6 amended-claim witness: 3 busy polls, 4 total. -/
theorem vent_polls_count_witness :
    (3 : ℕ) < 10 ∧ vent_status_polls (ventScript 3) 10 0 = some (3 + 1) :=
  ⟨by decide, vent_polls_count 3 10 (by decide)⟩

/-- C2: the polling loop of `set_press` iterates exactly while
`|measured - target| > PRECISSION` and status bit 1 is clear: when that
guard fails the loop exits at once, performing one final pressure read
and returning that value (normal exit); while the guard holds (and no
fatal bit appears in the freshly read status) the loop performs another
iteration on the re-read pressure and status. -/
theorem set_press_loop_guard (P : ℕ → ℚ) (S : ℕ → ℕ) (t : ℚ) (b : Bool)
    (fuel : ℕ) (p : ℚ) (st pi si : ℕ) :
    (¬(|p - t| > PRECISSION ∧ st &&& 1 = 0) →
        set_press_go P S t b (fuel + 1) p st pi si =
          some (P pi, SetPressExit.normal)) ∧
      ((|p - t| > PRECISSION ∧ st &&& 1 = 0) →
        S (nextSIdx b si) &&& 64 = 0 → S (nextSIdx b si) &&& 128 = 0 →
        set_press_go P S t b (fuel + 1) p st pi si =
          set_press_go P S t b fuel (P pi) (S (nextSIdx b si)) (pi + 1)
            (nextSIdx b si + 1)) := by
  constructor
  · intro h
    simp only [set_press_go]
    rw [if_neg h]
  · intro hg h64 h128
    simp only [set_press_go]
    rw [if_pos hg, if_neg (by simp [h64, h128])]

/-- C2 witness: target already reached at loop entry, guard false,
normal exit returning a fresh pressure read. -/
theorem set_press_loop_guard_witness :
    set_press_go (fun _ => 2) (fun _ => 0) 2 false 4 2 0 1 1 =
      some (2, SetPressExit.normal) :=
  (set_press_loop_guard (fun _ => 2) (fun _ => 0) 2 false 3 2 0 1 1).1
    (by norm_num [PRECISSION])

/-- C3: if during a loop iteration the freshly read status word has bit
64 (controller timeout) or bit 128 (stop state) set, the loop
terminates immediately on that iteration and the pressure measured in
that same iteration is returned as an ordinary value (a `some` result,
not a failure). -/
theorem set_press_fatal_exit (P : ℕ → ℚ) (S : ℕ → ℕ) (t : ℚ) (b : Bool)
    (fuel : ℕ) (p : ℚ) (st pi si : ℕ)
    (hg : |p - t| > PRECISSION ∧ st &&& 1 = 0)
    (hf : S (nextSIdx b si) &&& 64 ≠ 0 ∨ S (nextSIdx b si) &&& 128 ≠ 0) :
    set_press_go P S t b (fuel + 1) p st pi si =
      some (P pi, SetPressExit.fatal) := by
  simp only [set_press_go]
  rw [if_pos hg, if_pos hf]

/-- C3 witness: a transport asserting the timeout bit on the second
status poll before convergence; `set_press` returns the last measured
pressure 0, not the target 2. -/
theorem set_press_fatal_exit_witness :
    set_press (fun _ => 0) (fun i => if 1 ≤ i then 64 else 0) 2 false 5 =
      some (0, SetPressExit.fatal) ∧ (0 : ℚ) ≠ 2 := by
  constructor
  · show set_press_go _ _ 2 false (4 + 1) 0 0 1 1 = _
    exact set_press_fatal_exit _ _ 2 false 4 0 0 1 1
      ⟨by norm_num [PRECISSION], by decide⟩ (Or.inl (by decide))
  · norm_num

end DPC3000
